import Mathlib

/-!
Shallow embedding of the ranking engine of the klaviyo-similar-products
repository: the tokenizer, the BM25 lexical scorer, the Jaccard fallback
scorer, the composite scorer and the ranker
(`app/services/product_similarity.py` and
`app/services/similar_products_service.py`), together with theorems about
them.  Python floats are modelled as real numbers, Python sets of strings
as `Finset String`, the Python dict produced by `_calculate_bm25_idf` as a
partial lookup function `String → Option ℝ`, and Python exceptions as an
`Except` monad at the scoring call sites.  Leading underscores of the
Python helper names are dropped (Lean reserves them).
-/

/-- The `Product` dataclass of `app/adapters/base.py`.  Optional fields are
`Option`; prices (floats) are modelled as reals. -/
structure Product where
  id : String
  name : String
  category_id : String
  quantity : Int
  price : Option ℝ
  manufacturer_name : Option String
  name_secondary : Option String
  sku : Option String

/-- The bilingual stop-word set `STOP_WORDS` of
`app/services/product_similarity.py`. -/
def STOP_WORDS : List String :=
  ["the", "and", "for", "with", "of", "in", "on", "at", "a", "an",
   "pack", "mix", "set", "piece", "pieces", "bag", "box",
   "i", "na", "do", "z", "w", "o", "dla", "po", "ze", "od"]

/-- A word character in the sense of the regex `\w` (ASCII reading):
letters, digits or underscore. -/
def isWordChar (c : Char) : Bool := c.isAlphanum || c = '_'

/-- The unit codes of the quantity regex
`\d+\s?(g|kg|ml|l|mg|szt|pcs|oz|lb)(?:\s|$)`, in the alternation's order. -/
def unitCodes : List (List Char) :=
  [['g'], ['k', 'g'], ['m', 'l'], ['l'], ['m', 'g'],
   ['s', 'z', 't'], ['p', 'c', 's'], ['o', 'z'], ['l', 'b']]

/-- Does the first list start with the second one?  (Plain structural
recursion, so that the kernel can evaluate it.) -/
def startsWith : List Char → List Char → Bool
  | _, [] => true
  | [], _ :: _ => false
  | a :: as, b :: bs => a == b && startsWith as bs

/-- Try to match one unit code followed by `(?:\s|$)` at the head of `cs`;
return the number of characters consumed (the unit and, when present, the
single following whitespace character). -/
def unitEndLen (cs : List Char) (u : List Char) : Option Nat :=
  if startsWith cs u then
    match cs.drop u.length with
    | [] => some u.length
    | d :: _ => if d.isWhitespace then some (u.length + 1) else none
  else none

/-- Length of a match of `\s?(g|kg|ml|l|mg|szt|pcs|oz|lb)(?:\s|$)` at the
head of the text following the digits (alternatives tried in the regex's
order; the greedy `\s?` needs no backtracking because no unit code starts
with whitespace). -/
def qtyTailLen : List Char → Option Nat
  | [] => none
  | c :: t =>
    if c.isWhitespace then (unitCodes.findSome? (unitEndLen t)).map (· + 1)
    else unitCodes.findSome? (unitEndLen (c :: t))

/-- Length of the match of `\d+\s?(g|kg|ml|l|mg|szt|pcs|oz|lb)(?:\s|$)` at
the head of `cs`, when it matches there (the greedy `\d+` needs no
backtracking because no unit code starts with a digit). -/
def qtyMatchLen (cs : List Char) : Option Nat :=
  let ds := cs.takeWhile Char.isDigit
  if ds.isEmpty then none
  else (qtyTailLen (cs.drop ds.length)).map (fun k => ds.length + k)

/-- `re.sub` with the quantity pattern and replacement `' '`: scan left to
right, replace each leftmost non-overlapping match by a single space.
Structural recursion on a fuel argument (initially the text length, which
suffices since every step consumes at least one character) so that the
kernel can evaluate the function. -/
def subQuantitiesAux : Nat → List Char → List Char
  | 0, _ => []
  | _ + 1, [] => []
  | fuel + 1, c :: t =>
    match qtyMatchLen (c :: t) with
    | some n => ' ' :: subQuantitiesAux fuel ((c :: t).drop n)
    | none => c :: subQuantitiesAux fuel t

/-- The quantity-stripping substitution of `_tokenize_product_name`. -/
def subQuantities (cs : List Char) : List Char := subQuantitiesAux cs.length cs

/-- `re.findall(r'\w+', ·)`: the maximal runs of word characters, in
order.  Fuel-structured like `subQuantitiesAux`. -/
def wordRunsAux : Nat → List Char → List (List Char)
  | 0, _ => []
  | _ + 1, [] => []
  | fuel + 1, c :: t =>
    if isWordChar c then
      (c :: t.takeWhile isWordChar) :: wordRunsAux fuel (t.dropWhile isWordChar)
    else wordRunsAux fuel t

/-- The word extraction of `_tokenize_product_name`. -/
def wordRuns (cs : List Char) : List (List Char) := wordRunsAux cs.length cs

/-- `_tokenize_product_name` of `app/services/product_similarity.py`:
lower-case, strip quantity/unit patterns, extract word runs, drop stop
words and words shorter than 3 characters, return the rest as a set. -/
def tokenize_product_name (name : String) : Finset String :=
  if name = "" then ∅
  else
    let text := name.data.map Char.toLower
    let words := (wordRuns (subQuantities text)).map String.mk
    (words.filter (fun w => !(STOP_WORDS.contains w) && decide (3 ≤ w.length))).toFinset

/-- `_jaccard_similarity` of `app/services/product_similarity.py`. -/
noncomputable def jaccard_similarity (set1 set2 : Finset String) : ℝ :=
  if set1 = ∅ ∨ set2 = ∅ then 0
  else if set1 ∪ set2 = ∅ then 0
  else ((set1 ∩ set2).card : ℝ) / ((set1 ∪ set2).card : ℝ)

/-- `_calculate_price_similarity` of `app/services/product_similarity.py`:
tiered score of the relative price difference. -/
noncomputable def calculate_price_similarity (price1 price2 : ℝ) : ℝ :=
  let price_diff_pct := |price1 - price2| / price1
  if price_diff_pct ≤ 0.20 then 1
  else if price_diff_pct ≤ 0.50 then 0.5
  else 0.2

/-- Number of corpus documents containing `term` (the per-term counter of
`_calculate_bm25_idf`). -/
def docFreq (documents : List (Finset String)) (term : String) : Nat :=
  (documents.filter (fun d => decide (term ∈ d))).length

/-- `_calculate_bm25_idf` of `app/services/product_similarity.py`.  The
returned Python dict (whose keys are exactly the terms occurring in at
least one document, none at all when the document list is empty) is
modelled as a partial lookup function. -/
noncomputable def calculate_bm25_idf (documents : List (Finset String)) :
    String → Option ℝ := fun term =>
  if documents = [] then none
  else if docFreq documents term = 0 then none
  else some (Real.log (((documents.length : ℝ) - (docFreq documents term : ℝ) + 0.5) /
    ((docFreq documents term : ℝ) + 0.5) + 1))

/-- The per-term denominator `tf + k1 * (1 - b + b * (|D| / avgdl))` of
`_calculate_bm25_score` with the binary `tf = 1`; the same expression
appears in its normalization loop. -/
noncomputable def bm25Denominator (doc_length avgdl k1 b : ℝ) : ℝ :=
  1 + k1 * (1 - b + b * (doc_length / avgdl))

/-- `_calculate_bm25_score` of `app/services/product_similarity.py`.  The
Python default parameters `k1=1.5`, `b=0.75` are passed explicitly at every
call site.  Iteration over the Python set of query tokens is a `Finset`
sum. -/
noncomputable def calculate_bm25_score (query_tokens doc_tokens : Finset String)
    (idf_scores : String → Option ℝ) (avgdl k1 b : ℝ) : ℝ :=
  if query_tokens = ∅ ∨ doc_tokens = ∅ then 0
  else
    let doc_length : ℝ := doc_tokens.card
    let score := Finset.sum query_tokens fun term =>
      match idf_scores term with
      | none => 0
      | some idf =>
        if term ∈ doc_tokens then idf * ((k1 + 1) / bm25Denominator doc_length avgdl k1 b)
        else 0
    let max_score := Finset.sum query_tokens fun term =>
      match idf_scores term with
      | none => 0
      | some idf => idf * ((k1 + 1) / bm25Denominator doc_length avgdl k1 b)
    min (if max_score > 0 then score / max_score else score) 1

/-- The tokenized secondary-language name of a product, as the list of
documents it contributes to the corpus: one document when the Python
truthiness test `if p.name_secondary:` passes, none otherwise. -/
def secondaryDocs (p : Product) : List (Finset String) :=
  match p.name_secondary with
  | some s => if s = "" then [] else [tokenize_product_name s]
  | none => []

/-- The corpus built at the start of `calculate_name_similarity_with_context`:
the reference's tokenized name(s) followed by the tokenized name(s) of every
product of `all_products` whose id differs from the reference's. -/
def buildCorpus (original : Product) (all_products : List Product) :
    List (Finset String) :=
  [tokenize_product_name original.name] ++ secondaryDocs original
    ++ all_products.flatMap fun p =>
        if p.id = original.id then []
        else [tokenize_product_name p.name] ++ secondaryDocs p

/-- The average document length of `calculate_name_similarity_with_context`:
`sum(len(doc) for doc in documents) / len(documents) if documents else 1.0`. -/
noncomputable def corpusAvgdl (documents : List (Finset String)) : ℝ :=
  if documents = [] then 1
  else (documents.map fun d => (d.card : ℝ)).sum / (documents.length : ℝ)

/-- `calculate_name_similarity_with_context` of
`app/services/product_similarity.py`: BM25 of the primary names under the
shared corpus model and, when both products pass the secondary-name
truthiness test, the maximum with BM25 of the secondary names under the
same model. -/
noncomputable def calculate_name_similarity_with_context
    (original candidate : Product) (all_products : List Product) : ℝ :=
  let documents := buildCorpus original all_products
  let idf_scores := calculate_bm25_idf documents
  let avgdl := corpusAvgdl documents
  let similarity_primary := calculate_bm25_score
    (tokenize_product_name original.name) (tokenize_product_name candidate.name)
    idf_scores avgdl 1.5 0.75
  match original.name_secondary, candidate.name_secondary with
  | some s1, some s2 =>
    if s1 = "" ∨ s2 = "" then similarity_primary
    else max similarity_primary (calculate_bm25_score
      (tokenize_product_name s1) (tokenize_product_name s2) idf_scores avgdl 1.5 0.75)
  | _, _ => similarity_primary

/-- `_calculate_name_similarity` of `app/services/product_similarity.py`:
the Jaccard fallback, best match across languages when both sides pass the
secondary-name truthiness test. -/
noncomputable def calculate_name_similarity (original candidate : Product) : ℝ :=
  let similarity_primary := jaccard_similarity
    (tokenize_product_name original.name) (tokenize_product_name candidate.name)
  match original.name_secondary, candidate.name_secondary with
  | some s1, some s2 =>
    if s1 = "" ∨ s2 = "" then similarity_primary
    else max similarity_primary (jaccard_similarity
      (tokenize_product_name s1) (tokenize_product_name s2))
  | _, _ => similarity_primary

/-- The price addend of `calculate_product_similarity`: the Python guard
`if original.price and candidate.price and original.price > 0` is the
truthiness of both optional prices (present and nonzero) plus positivity of
the reference price. -/
noncomputable def priceTerm (original candidate : Product) : ℝ :=
  match original.price, candidate.price with
  | some p1, some p2 =>
    if p1 ≠ 0 ∧ p2 ≠ 0 ∧ 0 < p1 then calculate_price_similarity p1 p2 * 0.30 else 0
  | _, _ => 0

/-- The manufacturer addend of `calculate_product_similarity`: 0.10 when
both manufacturer names are present, nonempty and equal ignoring case. -/
noncomputable def manufacturerTerm (original candidate : Product) : ℝ :=
  match original.manufacturer_name, candidate.manufacturer_name with
  | some m1, some m2 =>
    if m1 ≠ "" ∧ m2 ≠ "" ∧ m1.toLower = m2.toLower then 0.10 else 0
  | _, _ => 0

/-- `calculate_product_similarity` of `app/services/product_similarity.py`:
the running accumulation `score += ...` written as the sum of its three
addends. -/
noncomputable def calculate_product_similarity (original candidate : Product) : ℝ :=
  calculate_name_similarity original candidate * 0.60
    + priceTerm original candidate + manufacturerTerm original candidate

/-- Modelled from the spec: the name term (weight 0.60) of the composite
scorer `calculate_similarity_with_context`, which
`similar_products_service.py` imports from `product_similarity.py` but which
is absent from that module; spec section 4.4 makes it "BM25 score between
reference and candidate, computed once per pair using the shared corpus
model", with the best-of-both-languages maximum — exactly the repository's
`calculate_name_similarity_with_context`, weighted 0.60. -/
noncomputable def name_contribution (original candidate : Product)
    (all_products : List Product) : ℝ :=
  0.60 * calculate_name_similarity_with_context original candidate all_products

/-- Modelled from the spec: the price term (weight 0.30) of the absent
composite scorer `calculate_similarity_with_context`; spec section 4.4:
"only contributes if both products have a positive price", tiered score of
`d = |p1 - p2| / p1`. -/
noncomputable def price_contribution (original candidate : Product) : ℝ :=
  match original.price, candidate.price with
  | some p1, some p2 =>
    if 0 < p1 ∧ 0 < p2 then 0.30 * calculate_price_similarity p1 p2 else 0
  | _, _ => 0

/-- Modelled from the spec: the manufacturer term (weight 0.10) of the
absent composite scorer `calculate_similarity_with_context`; spec section
4.4: "the full 0.10 only if both products have a non-empty manufacturer
name and they match case-insensitively". -/
noncomputable def manufacturer_contribution (original candidate : Product) : ℝ :=
  match original.manufacturer_name, candidate.manufacturer_name with
  | some m1, some m2 =>
    if m1 ≠ "" ∧ m2 ≠ "" ∧ m1.toLower = m2.toLower then 0.10 else 0
  | _, _ => 0

/-- Modelled from the spec: `calculate_similarity_with_context`, the
composite scorer imported by `similar_products_service.py` but missing from
`product_similarity.py`; spec section 4.4: the weighted sum of the three
independent contributions. -/
noncomputable def calculate_similarity_with_context
    (original candidate : Product) (all_products : List Product) : ℝ :=
  name_contribution original candidate all_products
    + price_contribution original candidate
    + manufacturer_contribution original candidate

/-- The filter of `find_similar_products` in
`app/services/similar_products_service.py`: drop the reference id and any
candidate without positive stock. -/
def eligibleCandidates (original : Product) (candidates : List Product) :
    List Product :=
  candidates.filter fun p => !(p.id == original.id) && decide (0 < p.quantity)

/-- The scoring loop of `find_similar_products`: score every candidate of
the filtered pool, accumulating `(score, candidate)` pairs; a Python
exception raised by the scorer aborts the loop and is modelled by
`Except.error`. -/
def scoreListE {α : Type} {E : Type} (f : Product → Except E α) :
    List Product → Except E (List (α × Product))
  | [] => Except.ok []
  | c :: rest =>
    match f c, scoreListE f rest with
    | Except.error e, _ => Except.error e
    | Except.ok _, Except.error e => Except.error e
    | Except.ok s, Except.ok tail => Except.ok ((s, c) :: tail)

/-- The comparison of `scored.sort(key=lambda x: x[0], reverse=True)`:
sorting is stable and descending on the score component, so the merge takes
from the left (earlier) list whenever the right score does not exceed it. -/
def scoredDesc {α : Type} [LinearOrder α] (a b : α × Product) : Bool :=
  decide (b.1 ≤ a.1)

/-- `find_similar_products` of `app/services/similar_products_service.py`,
with the candidate pool (fetched by the adapter in the source) and the
result limit (`self.limit`) as parameters and the scorer
(`calculate_similarity_with_context`) as a function parameter that may
raise.  The surrounding `try`/`except` returns the empty list when the
scorer raises; the stable descending Python sort is `mergeSort` on the
score component. -/
def find_similar_products {α : Type} [LinearOrder α] {E : Type}
    (scorer : Product → Product → List Product → Except E α)
    (original : Product) (candidates : List Product) (limit : Nat) : List String :=
  let cands := eligibleCandidates original candidates
  if cands.isEmpty then []
  else
    match scoreListE (fun c => scorer original c cands) cands with
    | Except.error _ => []
    | Except.ok scored => ((scored.mergeSort scoredDesc).take limit).map fun x => x.2.id

/-- The ranking pipeline's scorer: the (spec-modelled) composite scorer,
which raises no exception of its own. -/
noncomputable def rankerScorer : Product → Product → List Product → Except String ℝ :=
  fun original candidate pool =>
    Except.ok (calculate_similarity_with_context original candidate pool)

/-- `_calculate_price_similarity` with its single division site checked:
`none` models a Python `ZeroDivisionError` when the reference price is 0. -/
noncomputable def calculate_price_similarity_chk (price1 price2 : ℝ) : Option ℝ :=
  if price1 = 0 then none
  else some (calculate_price_similarity price1 price2)

/-- `_calculate_bm25_score` with its division sites checked: the divisions
`doc_length / avgdl` and by the per-term denominator are evaluated exactly
when some query term has an idf entry; the final normalization divides only
under the source's own `max_score > 0` guard, which already excludes a zero
divisor. -/
noncomputable def calculate_bm25_score_chk (query_tokens doc_tokens : Finset String)
    (idf_scores : String → Option ℝ) (avgdl k1 b : ℝ) : Option ℝ :=
  if query_tokens = ∅ ∨ doc_tokens = ∅ then some 0
  else if (∃ t ∈ query_tokens, (idf_scores t).isSome) ∧ avgdl = 0 then none
  else if (∃ t ∈ query_tokens, (idf_scores t).isSome) ∧
      bm25Denominator (doc_tokens.card : ℝ) avgdl k1 b = 0 then none
  else some (calculate_bm25_score query_tokens doc_tokens idf_scores avgdl k1 b)

/-- The corpus average document length with its division site checked:
the division by `len(documents)` is evaluated only on the nonempty branch
of the conditional expression. -/
noncomputable def corpusAvgdl_chk (documents : List (Finset String)) : Option ℝ :=
  if documents = [] then some 1
  else if (documents.length : ℝ) = 0 then none
  else some (corpusAvgdl documents)

/-- `calculate_name_similarity_with_context` with every division site of
its pipeline checked. -/
noncomputable def name_similarity_with_context_chk
    (original candidate : Product) (all_products : List Product) : Option ℝ :=
  let documents := buildCorpus original all_products
  let idf_scores := calculate_bm25_idf documents
  match corpusAvgdl_chk documents with
  | none => none
  | some avgdl =>
    match calculate_bm25_score_chk (tokenize_product_name original.name)
        (tokenize_product_name candidate.name) idf_scores avgdl 1.5 0.75 with
    | none => none
    | some similarity_primary =>
      match original.name_secondary, candidate.name_secondary with
      | some s1, some s2 =>
        if s1 = "" ∨ s2 = "" then some similarity_primary
        else (calculate_bm25_score_chk (tokenize_product_name s1)
            (tokenize_product_name s2) idf_scores avgdl 1.5 0.75).map
          fun similarity_secondary => max similarity_primary similarity_secondary
      | _, _ => some similarity_primary

/-- The `scored` list of `find_similar_products` when the scorer is the
composite scorer: every eligible candidate paired with its composite score
against the shared (filtered) pool. -/
noncomputable def scoredPairs (original : Product) (candidates : List Product) :
    List (ℝ × Product) :=
  (eligibleCandidates original candidates).map fun c =>
    (calculate_similarity_with_context original c (eligibleCandidates original candidates), c)

/-- Both products pass the Python truthiness test on their
secondary-language name (present and nonempty). -/
def hasSecondaryPair (original candidate : Product) : Prop :=
  ∃ s1 s2, original.name_secondary = some s1 ∧ s1 ≠ ""
    ∧ candidate.name_secondary = some s2 ∧ s2 ≠ ""

theorem qtyMatchLen_pos {cs : List Char} {n : Nat} (h : qtyMatchLen cs = some n) :
    1 ≤ n := by
  simp only [qtyMatchLen] at h
  by_cases hds : (cs.takeWhile Char.isDigit).isEmpty = true
  · simp [hds] at h
  · rw [if_neg hds] at h
    rcases htail : qtyTailLen (cs.drop (cs.takeWhile Char.isDigit).length) with _ | k
    · rw [htail] at h; simp at h
    · rw [htail] at h
      simp only [Option.map_some', Option.some.injEq] at h
      have hlen : (cs.takeWhile Char.isDigit).length ≠ 0 := by
        simp only [List.isEmpty_iff] at hds
        simpa [List.length_eq_zero] using hds
      omega

theorem scoreListE_ok_map {α : Type} {E : Type} (f : Product → α) (l : List Product) :
    scoreListE (fun c => (Except.ok (f c) : Except E α)) l
      = Except.ok (l.map fun c => (f c, c)) := by
  induction l with
  | nil => rfl
  | cons c rest ih => simp [scoreListE, ih]

theorem scoreListE_ok_length {α : Type} {E : Type} {f : Product → Except E α}
    {l : List Product} {scored : List (α × Product)}
    (h : scoreListE f l = Except.ok scored) : scored.length = l.length := by
  induction l generalizing scored with
  | nil => simp [scoreListE] at h; simp [← h]
  | cons c rest ih =>
    simp only [scoreListE] at h
    rcases hf : f c with e | s
    · rw [hf] at h; simp at h
    · rw [hf] at h
      rcases hr : scoreListE f rest with e | tail
      · rw [hr] at h; simp at h
      · rw [hr] at h
        simp only [Except.ok.injEq] at h
        subst h
        simp [ih hr]

theorem find_similar_products_ok {α : Type} [LinearOrder α] {E : Type}
    (f : Product → Product → List Product → α)
    (original : Product) (candidates : List Product) (limit : Nat) :
    find_similar_products (fun o c pool => (Except.ok (f o c pool) : Except E α))
        original candidates limit
      = (((((eligibleCandidates original candidates).map fun c =>
            (f original c (eligibleCandidates original candidates), c)).mergeSort
          scoredDesc).take limit).map fun x => x.2.id) := by
  simp only [find_similar_products]
  by_cases h : (eligibleCandidates original candidates).isEmpty
  · rw [if_pos h]
    rw [List.isEmpty_iff.mp h]
    simp
  · rw [if_neg h, scoreListE_ok_map]

/-- C3: the ranker returns exactly `min limit (number of eligible
candidates)` ids — the filtered pool is fully scored, sorted, and cut to
the first `limit` entries. -/
theorem find_similar_products_length_eq (original : Product)
    (candidates : List Product) (limit : Nat) :
    (find_similar_products rankerScorer original candidates limit).length
      = min limit (eligibleCandidates original candidates).length := by
  unfold rankerScorer
  rw [find_similar_products_ok]
  simp

theorem mem_find_similar_products {s : String} {original : Product}
    {candidates : List Product} {limit : Nat}
    (h : s ∈ find_similar_products rankerScorer original candidates limit) :
    ∃ q ∈ eligibleCandidates original candidates, q.id = s := by
  unfold rankerScorer at h
  rw [find_similar_products_ok] at h
  simp only [List.mem_map] at h
  obtain ⟨x, hx, hxid⟩ := h
  have hx2 := (List.take_sublist limit _).subset hx
  rw [List.mem_mergeSort] at hx2
  simp only [List.mem_map] at hx2
  obtain ⟨q, hq, hq2⟩ := hx2
  exact ⟨q, hq, by rw [← hxid, ← hq2]⟩

theorem mem_eligibleCandidates {q original : Product} {candidates : List Product}
    (h : q ∈ eligibleCandidates original candidates) :
    q ∈ candidates ∧ q.id ≠ original.id ∧ 0 < q.quantity := by
  have h' := List.mem_filter.mp h
  simpa only [Bool.and_eq_true, Bool.not_eq_true', beq_eq_false_iff_ne,
    decide_eq_true_eq, and_assoc] using h'

/-- C2: the id list returned by the ranker never contains the reference id,
and (ids being unique in the catalog) never the id of a candidate without
positive stock. -/
theorem find_similar_products_excludes (original : Product)
    (candidates : List Product) (limit : Nat)
    (hnodup : (candidates.map Product.id).Nodup) :
    (∀ s ∈ find_similar_products rankerScorer original candidates limit,
        s ≠ original.id)
    ∧ ∀ p ∈ candidates, p.quantity ≤ 0 →
        p.id ∉ find_similar_products rankerScorer original candidates limit := by
  constructor
  · intro s hs
    obtain ⟨q, hq, rfl⟩ := mem_find_similar_products hs
    exact (mem_eligibleCandidates hq).2.1
  · intro p hp hple hmem
    obtain ⟨q, hqe, hid⟩ := mem_find_similar_products hmem
    obtain ⟨hqc, _, hqpos⟩ := mem_eligibleCandidates hqe
    have heq : q = p := List.inj_on_of_nodup_map hnodup hqc hp hid
    rw [heq] at hqpos
    omega

/-- Witness for C2 at a concrete pool: a reference, one in-stock candidate
and one out-of-stock candidate with pairwise distinct ids. -/
theorem find_similar_products_excludes_witness :
    ((([⟨"1", "In Stock", "5", 5, none, none, none, none⟩,
        ⟨"2", "Out Of Stock", "5", 0, none, none, none, none⟩] :
          List Product).map Product.id).Nodup)
    ∧ ((∀ s ∈ find_similar_products rankerScorer
          ⟨"X", "Reference", "5", 0, none, none, none, none⟩
          [⟨"1", "In Stock", "5", 5, none, none, none, none⟩,
           ⟨"2", "Out Of Stock", "5", 0, none, none, none, none⟩] 6,
          s ≠ (Product.mk "X" "Reference" "5" 0 none none none none).id)
      ∧ ∀ p ∈ ([⟨"1", "In Stock", "5", 5, none, none, none, none⟩,
           ⟨"2", "Out Of Stock", "5", 0, none, none, none, none⟩] : List Product),
          p.quantity ≤ 0 →
          p.id ∉ find_similar_products rankerScorer
            ⟨"X", "Reference", "5", 0, none, none, none, none⟩
            [⟨"1", "In Stock", "5", 5, none, none, none, none⟩,
             ⟨"2", "Out Of Stock", "5", 0, none, none, none, none⟩] 6) :=
  ⟨by decide, find_similar_products_excludes _ _ 6 (by decide)⟩

/-- C6 counterexample: with a nonempty eligible pool, a scorer that raises
does not propagate out of `find_similar_products`; the `except` branch
swallows the exception and returns the empty list, so an empty result also
arises outside the empty-pool path. -/
theorem find_similar_products_swallows_exception :
    eligibleCandidates ⟨"X", "Ref", "5", 0, none, none, none, none⟩
        [⟨"1", "Cand", "5", 5, none, none, none, none⟩] ≠ []
    ∧ find_similar_products (α := ℚ) (E := String) (fun _ _ _ => Except.error "boom")
        ⟨"X", "Ref", "5", 0, none, none, none, none⟩
        [⟨"1", "Cand", "5", 5, none, none, none, none⟩] 6 = [] := by
  constructor
  · exact List.length_pos.mp (by decide)
  · rfl

/-- C6 (amended): exceptions raised while scoring are caught inside
`find_similar_products`, which returns the empty list; the result is empty
exactly when the filtered pool is empty, or the scorer raised, or the
limit is 0. -/
theorem find_similar_products_empty_iff {α : Type} [LinearOrder α] {E : Type}
    (scorer : Product → Product → List Product → Except E α)
    (original : Product) (candidates : List Product) (limit : Nat) :
    find_similar_products scorer original candidates limit = []
      ↔ (eligibleCandidates original candidates = []
          ∨ (∃ e, scoreListE (fun c => scorer original c (eligibleCandidates original candidates))
              (eligibleCandidates original candidates) = Except.error e)
          ∨ limit = 0) := by
  simp only [find_similar_products]
  by_cases h : (eligibleCandidates original candidates).isEmpty
  · rw [if_pos h]
    simp [List.isEmpty_iff.mp h]
  · rw [if_neg h]
    have hne : eligibleCandidates original candidates ≠ [] := by
      simpa [List.isEmpty_iff] using h
    rcases hsc : scoreListE (fun c => scorer original c (eligibleCandidates original candidates))
        (eligibleCandidates original candidates) with e | scored
    · simp [hne, hsc]
    · have hlen : scored.length = (eligibleCandidates original candidates).length :=
        scoreListE_ok_length hsc
      constructor
      · intro hres
        right; right
        rw [List.map_eq_nil_iff] at hres
        rcases List.take_eq_nil_iff.mp hres with h0 | hms
        · exact h0
        · exfalso
          have : scored = [] := by
            have := congrArg List.length hms
            simp only [List.length_mergeSort, List.length_nil] at this
            exact List.length_eq_zero.mp this
          rw [this] at hlen
          simp only [List.length_nil] at hlen
          exact hne (List.length_eq_zero.mp hlen.symm)
      · intro hres
        rcases hres with h0 | ⟨e, he⟩ | h0
        · exact absurd h0 hne
        · simp at he
        · simp [h0]

theorem scoredDesc_trans {α : Type} [LinearOrder α] :
    ∀ a b c : α × Product, scoredDesc a b → scoredDesc b c → scoredDesc a c := by
  intro a b c h1 h2
  simp only [scoredDesc, decide_eq_true_eq] at h1 h2 ⊢
  exact le_trans h2 h1

theorem scoredDesc_total {α : Type} [LinearOrder α] :
    ∀ a b : α × Product, scoredDesc a b || scoredDesc b a := by
  intro a b
  simp only [scoredDesc, Bool.or_eq_true, decide_eq_true_eq]
  exact le_total b.1 a.1

theorem mergeSort_scoredDesc_pairwise {α : Type} [LinearOrder α]
    (l : List (α × Product)) :
    (l.mergeSort scoredDesc).Pairwise fun a b => b.1 ≤ a.1 := by
  have h := List.sorted_mergeSort scoredDesc_trans scoredDesc_total l
  exact h.imp fun hab => by simpa [scoredDesc, decide_eq_true_eq] using hab

theorem mergeSort_scoredDesc_stable {α : Type} [LinearOrder α]
    (l : List (α × Product)) (s : α) :
    (l.mergeSort scoredDesc).filter (fun x => decide (x.1 = s))
      = l.filter fun x => decide (x.1 = s) := by
  have hpw : (l.filter fun x => decide (x.1 = s)).Pairwise
      fun a b => scoredDesc a b = true := by
    apply List.pairwise_of_forall_mem_list
    intro a ha b hb
    have ha' := List.of_mem_filter ha
    have hb' := List.of_mem_filter hb
    simp only [decide_eq_true_eq] at ha' hb'
    simp only [scoredDesc]
    exact decide_eq_true (le_of_eq (hb'.trans ha'.symm))
  have h2 : List.Sublist (l.filter fun x => decide (x.1 = s)) (l.mergeSort scoredDesc) :=
    List.sublist_mergeSort scoredDesc_trans scoredDesc_total hpw (List.filter_sublist l)
  have h3 : List.Sublist (l.filter fun x => decide (x.1 = s))
      ((l.mergeSort scoredDesc).filter fun x => decide (x.1 = s)) := by
    have h4 := h2.filter fun x => decide (x.1 = s)
    have h5 : ((l.filter fun x => decide (x.1 = s)).filter fun x => decide (x.1 = s))
        = l.filter fun x => decide (x.1 = s) := by
      apply List.filter_eq_self.mpr
      intro a ha
      have h6 := List.of_mem_filter ha
      exact h6
    rwa [h5] at h4
  have hlen : ((l.mergeSort scoredDesc).filter fun x => decide (x.1 = s)).length
      = (l.filter fun x => decide (x.1 = s)).length :=
    ((List.mergeSort_perm l scoredDesc).filter fun x => decide (x.1 = s)).length_eq
  exact (h3.eq_of_length hlen.symm).symm

/-- C8: the ranker's output is the scored pool sorted in descending score
order and cut to `limit`; the sort is `mergeSort`, which is stable, so
candidates with equal scores keep their relative pool (insertion) order:
filtering the sorted list to any fixed score value yields exactly the
filtered pool in its original order. -/
theorem find_similar_products_sorted_stable (original : Product)
    (candidates : List Product) (limit : Nat) :
    (find_similar_products rankerScorer original candidates limit
        = (((scoredPairs original candidates).mergeSort scoredDesc).take limit).map
            fun x => x.2.id)
    ∧ (((scoredPairs original candidates).mergeSort scoredDesc).Pairwise
        fun a b => b.1 ≤ a.1)
    ∧ ∀ s : ℝ,
        ((scoredPairs original candidates).mergeSort scoredDesc).filter
            (fun x => decide (x.1 = s))
          = (scoredPairs original candidates).filter fun x => decide (x.1 = s) := by
  refine ⟨?_, mergeSort_scoredDesc_pairwise _, fun s => mergeSort_scoredDesc_stable _ s⟩
  unfold rankerScorer scoredPairs
  rw [find_similar_products_ok]

/-- C1: under the spec-modelled composite scorer (`spec-modelled`: the
imported `calculate_similarity_with_context` is absent from
`product_similarity.py`), the name contribution is 0.60 times the BM25
score of the primary pair under the shared corpus model, and when both
products pass the secondary-name truthiness test it is 0.60 times the
maximum of the primary-pair and secondary-pair BM25 scores under that same
model. -/
theorem name_contribution_eq_bm25 (original candidate : Product)
    (all_products : List Product) :
    (¬ hasSecondaryPair original candidate →
      name_contribution original candidate all_products
        = 0.60 * calculate_bm25_score (tokenize_product_name original.name)
            (tokenize_product_name candidate.name)
            (calculate_bm25_idf (buildCorpus original all_products))
            (corpusAvgdl (buildCorpus original all_products)) 1.5 0.75)
    ∧ ∀ s1 s2, original.name_secondary = some s1 → s1 ≠ "" →
        candidate.name_secondary = some s2 → s2 ≠ "" →
        name_contribution original candidate all_products
          = 0.60 * max
              (calculate_bm25_score (tokenize_product_name original.name)
                (tokenize_product_name candidate.name)
                (calculate_bm25_idf (buildCorpus original all_products))
                (corpusAvgdl (buildCorpus original all_products)) 1.5 0.75)
              (calculate_bm25_score (tokenize_product_name s1)
                (tokenize_product_name s2)
                (calculate_bm25_idf (buildCorpus original all_products))
                (corpusAvgdl (buildCorpus original all_products)) 1.5 0.75) := by
  constructor
  · intro hn
    simp only [name_contribution, calculate_name_similarity_with_context]
    rcases ho : original.name_secondary with _ | s1
    · rfl
    · rcases hc : candidate.name_secondary with _ | s2
      · rfl
      · have hor : s1 = "" ∨ s2 = "" := by
          by_contra hcon
          push_neg at hcon
          exact hn ⟨s1, s2, ho, hcon.1, hc, hcon.2⟩
        dsimp only
        rw [if_pos hor]
  · intro s1 s2 ho h1 hc h2
    simp only [name_contribution, calculate_name_similarity_with_context]
    rw [ho, hc]
    dsimp only
    rw [if_neg (not_or.mpr ⟨h1, h2⟩)]

/-- Witness for C1: two bilingual products; the name contribution is 0.60
times the best of the two per-language BM25 scores under the one corpus
model. -/
theorem name_contribution_eq_bm25_witness :
    name_contribution ⟨"X", "Oat Cookies", "5", 0, none, none, some "Ciastka Owsiane", none⟩
        ⟨"1", "Choco Cookies", "5", 5, none, none, some "Ciastka Czekoladowe", none⟩
        [⟨"1", "Choco Cookies", "5", 5, none, none, some "Ciastka Czekoladowe", none⟩]
      = 0.60 * max
          (calculate_bm25_score (tokenize_product_name "Oat Cookies")
            (tokenize_product_name "Choco Cookies")
            (calculate_bm25_idf (buildCorpus
              ⟨"X", "Oat Cookies", "5", 0, none, none, some "Ciastka Owsiane", none⟩
              [⟨"1", "Choco Cookies", "5", 5, none, none, some "Ciastka Czekoladowe", none⟩]))
            (corpusAvgdl (buildCorpus
              ⟨"X", "Oat Cookies", "5", 0, none, none, some "Ciastka Owsiane", none⟩
              [⟨"1", "Choco Cookies", "5", 5, none, none, some "Ciastka Czekoladowe", none⟩])) 1.5 0.75)
          (calculate_bm25_score (tokenize_product_name "Ciastka Owsiane")
            (tokenize_product_name "Ciastka Czekoladowe")
            (calculate_bm25_idf (buildCorpus
              ⟨"X", "Oat Cookies", "5", 0, none, none, some "Ciastka Owsiane", none⟩
              [⟨"1", "Choco Cookies", "5", 5, none, none, some "Ciastka Czekoladowe", none⟩]))
            (corpusAvgdl (buildCorpus
              ⟨"X", "Oat Cookies", "5", 0, none, none, some "Ciastka Owsiane", none⟩
              [⟨"1", "Choco Cookies", "5", 5, none, none, some "Ciastka Czekoladowe", none⟩])) 1.5 0.75) :=
  (name_contribution_eq_bm25 _ _ _).2 "Ciastka Owsiane" "Ciastka Czekoladowe"
    rfl (by decide) rfl (by decide)

theorem mem_buildCorpus_of (original : Product) (pool : List Product) :
    (tokenize_product_name original.name ∈ buildCorpus original pool)
    ∧ (∀ s, original.name_secondary = some s → s ≠ "" →
        tokenize_product_name s ∈ buildCorpus original pool)
    ∧ ∀ p ∈ pool, p.id ≠ original.id →
        tokenize_product_name p.name ∈ buildCorpus original pool
        ∧ ∀ s, p.name_secondary = some s → s ≠ "" →
            tokenize_product_name s ∈ buildCorpus original pool := by
  refine ⟨?_, ?_, ?_⟩
  · simp [buildCorpus]
  · intro s hs hne
    simp [buildCorpus, secondaryDocs, hs, hne]
  · intro p hp hid
    constructor
    · have hmem : tokenize_product_name p.name ∈ pool.flatMap fun q =>
          if q.id = original.id then []
          else [tokenize_product_name q.name] ++ secondaryDocs q :=
        List.mem_flatMap.mpr ⟨p, hp, by simp [hid]⟩
      simp only [buildCorpus]
      exact List.mem_append_right _ hmem
    · intro s hs hne
      have hmem : tokenize_product_name s ∈ pool.flatMap fun q =>
          if q.id = original.id then []
          else [tokenize_product_name q.name] ++ secondaryDocs q :=
        List.mem_flatMap.mpr ⟨p, hp, by simp [hid, secondaryDocs, hs, hne]⟩
      simp only [buildCorpus]
      exact List.mem_append_right _ hmem

/-- C7: on every ranking call — where the corpus pool is the filtered
candidate list, whose members all differ from the reference id — the
document set from which the BM25 model is built contains the tokenized
primary name of the reference and of every candidate, and the tokenized
secondary name of each wherever the (nonempty) secondary name is
present. -/
theorem buildCorpus_contains_all (original : Product) (candidates : List Product) :
    (tokenize_product_name original.name
        ∈ buildCorpus original (eligibleCandidates original candidates))
    ∧ (∀ s, original.name_secondary = some s → s ≠ "" →
        tokenize_product_name s
          ∈ buildCorpus original (eligibleCandidates original candidates))
    ∧ ∀ p ∈ eligibleCandidates original candidates,
        tokenize_product_name p.name
            ∈ buildCorpus original (eligibleCandidates original candidates)
        ∧ ∀ s, p.name_secondary = some s → s ≠ "" →
            tokenize_product_name s
              ∈ buildCorpus original (eligibleCandidates original candidates) := by
  obtain ⟨h1, h2, h3⟩ := mem_buildCorpus_of original (eligibleCandidates original candidates)
  exact ⟨h1, h2, fun p hp => h3 p hp (mem_eligibleCandidates hp).2.1⟩

/-- Witness for C7: the reference's secondary-language document is in the
corpus of a concrete ranking call. -/
theorem buildCorpus_contains_all_witness :
    tokenize_product_name "Ciastka Owsiane"
      ∈ buildCorpus ⟨"X", "Oat Cookies", "5", 0, none, none, some "Ciastka Owsiane", none⟩
        (eligibleCandidates ⟨"X", "Oat Cookies", "5", 0, none, none, some "Ciastka Owsiane", none⟩
          [⟨"1", "Choco Cookies", "5", 5, none, none, some "Ciastka Czekoladowe", none⟩]) :=
  (buildCorpus_contains_all _ _).2.1 "Ciastka Owsiane" rfl (by decide)

/-- C4 counterexample: tokenizing "Gluten-Free Cookie Mix 600g" does not
yield the set {"gluten", "cookie"}; the word "free" survives, because
"free" is not in `STOP_WORDS`. -/
theorem tokenize_gluten_free_counterexample :
    tokenize_product_name "Gluten-Free Cookie Mix 600g"
      ≠ ({"gluten", "cookie"} : Finset String) := by decide

/-- C4 (amended): tokenizing "Gluten-Free Cookie Mix 600g" yields exactly
{"gluten", "free", "cookie"}: the quantity token from "600g" is stripped
and the stop word "mix" is discarded, while "free" is retained since it is
not a member of the stop-word list. -/
theorem tokenize_gluten_free_eq :
    tokenize_product_name "Gluten-Free Cookie Mix 600g"
      = ({"gluten", "free", "cookie"} : Finset String)
    ∧ "free" ∉ STOP_WORDS := by decide

/-- C5 counterexample: a present negative candidate price passes the
Python truthiness guard `original.price and candidate.price and
original.price > 0`, so the price term contributes 0.06 to the composite
score although the candidate price is not positive — the claim demands a
contribution of exactly 0 there. -/
theorem priceTerm_negative_counterexample :
    (Product.mk "c" "Q" "5" 1 (some (-5)) none none none).price = some (-5)
    ∧ ¬ ((0:ℝ) < -5)
    ∧ priceTerm (Product.mk "o" "P" "5" 1 (some 10) none none none)
        (Product.mk "c" "Q" "5" 1 (some (-5)) none none none) = 0.06 := by
  refine ⟨rfl, by norm_num, ?_⟩
  simp only [priceTerm]
  rw [if_pos (by norm_num : (10:ℝ) ≠ 0 ∧ (-5:ℝ) ≠ 0 ∧ (0:ℝ) < 10)]
  simp only [calculate_price_similarity]
  rw [abs_of_pos (by norm_num : (0:ℝ) < 10 - -5)]
  rw [if_neg (by norm_num), if_neg (by norm_num)]
  norm_num

/-- C5 (amended): the price term of `calculate_product_similarity`
contributes 0.30 times the tier value of `d = |p1 - p2| / p1` whenever the
reference price is positive and the candidate price is present and
nonzero; it contributes exactly 0 when either price is absent, the
candidate price is zero, or the reference price is not positive.  (A
present negative candidate price is treated like a positive one by the
source's truthiness guard.) -/
theorem priceTerm_characterization (original candidate : Product) :
    (calculate_product_similarity original candidate
        = calculate_name_similarity original candidate * 0.60
          + priceTerm original candidate + manufacturerTerm original candidate)
    ∧ (∀ p1 p2 : ℝ, original.price = some p1 → candidate.price = some p2 →
        0 < p1 → p2 ≠ 0 →
        priceTerm original candidate
          = (if |p1 - p2| / p1 ≤ 0.20 then 1
             else if |p1 - p2| / p1 ≤ 0.50 then 0.5 else 0.2) * 0.30)
    ∧ ((original.price = none ∨ candidate.price = none ∨ candidate.price = some 0
          ∨ ∃ p1 ≤ 0, original.price = some p1) →
        priceTerm original candidate = 0) := by
  refine ⟨rfl, ?_, ?_⟩
  · intro p1 p2 h1 h2 hpos hne
    simp only [priceTerm, h1, h2]
    rw [if_pos ⟨ne_of_gt hpos, hne, hpos⟩]
    simp only [calculate_price_similarity]
  · intro h
    rcases h with h | h | h | ⟨p1, hle, hp⟩
    · simp [priceTerm, h]
    · rcases ho : original.price with _ | q1 <;> simp [priceTerm, h, ho]
    · rcases ho : original.price with _ | q1
      · simp [priceTerm, h, ho]
      · simp only [priceTerm, h, ho]
        rw [if_neg]
        exact fun hcon => hcon.2.1 rfl
    · rcases hc : candidate.price with _ | q2
      · simp [priceTerm, hp, hc]
      · simp only [priceTerm, hp, hc]
        rw [if_neg]
        exact fun hcon => absurd hcon.2.2 (not_lt.mpr hle)

/-- Witness for C5 at concrete prices 10 and 12 (within 20 percent). -/
theorem priceTerm_characterization_witness :
    priceTerm (Product.mk "o" "P" "5" 1 (some 10) none none none)
        (Product.mk "c" "Q" "5" 1 (some 12) none none none)
      = (if |(10:ℝ) - 12| / 10 ≤ 0.20 then 1
         else if |(10:ℝ) - 12| / 10 ≤ 0.50 then 0.5 else 0.2) * 0.30 :=
  (priceTerm_characterization _ _).2.1 10 12 rfl rfl (by norm_num) (by norm_num)

theorem corpusAvgdl_pos {documents : List (Finset String)} {q : Finset String}
    (hq : q ∈ documents) (hne : q ≠ ∅) : 0 < corpusAvgdl documents := by
  have hdocs : documents ≠ [] := List.ne_nil_of_mem hq
  simp only [corpusAvgdl, if_neg hdocs]
  apply div_pos
  · have hq1 : (1:ℝ) ≤ (q.card : ℝ) := by
      have hcard := Finset.card_pos.mpr (Finset.nonempty_iff_ne_empty.mpr hne)
      exact_mod_cast hcard
    have hmem : ((q.card : ℝ)) ∈ documents.map fun d => (d.card : ℝ) :=
      List.mem_map_of_mem _ hq
    have hnonneg : ∀ x ∈ documents.map fun d => (d.card : ℝ), (0:ℝ) ≤ x := by
      intro x hx
      obtain ⟨d, _, rfl⟩ := List.mem_map.mp hx
      positivity
    have hle := List.single_le_sum hnonneg _ hmem
    linarith
  · have hlen : 0 < documents.length := List.length_pos.mpr hdocs
    exact_mod_cast hlen

theorem bm25Denominator_pos {dl avgdl : ℝ} (hdl : 0 ≤ dl) (havg : 0 < avgdl) :
    0 < bm25Denominator dl avgdl 1.5 0.75 := by
  simp only [bm25Denominator]
  have h1 : 0 ≤ dl / avgdl := div_nonneg hdl (le_of_lt havg)
  nlinarith

theorem bm25_chk_eq_of (query doc : Finset String) (idf : String → Option ℝ)
    (avgdl k1 b : ℝ)
    (h : query = ∅ ∨ doc = ∅
        ∨ (avgdl ≠ 0 ∧ bm25Denominator (doc.card : ℝ) avgdl k1 b ≠ 0)) :
    calculate_bm25_score_chk query doc idf avgdl k1 b
      = some (calculate_bm25_score query doc idf avgdl k1 b) := by
  rcases h with h | h | ⟨h1, h2⟩
  · have hq : query = ∅ ∨ doc = ∅ := Or.inl h
    simp only [calculate_bm25_score_chk, calculate_bm25_score, if_pos hq]
  · have hq : query = ∅ ∨ doc = ∅ := Or.inr h
    simp only [calculate_bm25_score_chk, calculate_bm25_score, if_pos hq]
  · have hcond : ¬((∃ t ∈ query, (idf t).isSome) ∧ avgdl = 0) := fun hc => h1 hc.2
    have hcond2 : ¬((∃ t ∈ query, (idf t).isSome)
        ∧ bm25Denominator (doc.card : ℝ) avgdl k1 b = 0) := fun hc => h2 hc.2
    by_cases hq : query = ∅ ∨ doc = ∅
    · simp only [calculate_bm25_score_chk, calculate_bm25_score, if_pos hq]
    · simp only [calculate_bm25_score_chk, if_neg hq, if_neg hcond, if_neg hcond2]

theorem name_similarity_chk_eq (original candidate : Product)
    (all_products : List Product) :
    name_similarity_with_context_chk original candidate all_products
      = some (calculate_name_similarity_with_context original candidate all_products) := by
  have havgdl : corpusAvgdl_chk (buildCorpus original all_products)
      = some (corpusAvgdl (buildCorpus original all_products)) := by
    simp only [corpusAvgdl_chk]
    by_cases hd : buildCorpus original all_products = []
    · rw [if_pos hd]
      simp [corpusAvgdl, hd]
    · rw [if_neg hd, if_neg]
      have hlen : 0 < (buildCorpus original all_products).length := List.length_pos.mpr hd
      intro hc
      have hzero : (buildCorpus original all_products).length = 0 := by exact_mod_cast hc
      omega
  have hbmP : calculate_bm25_score_chk (tokenize_product_name original.name)
      (tokenize_product_name candidate.name)
      (calculate_bm25_idf (buildCorpus original all_products))
      (corpusAvgdl (buildCorpus original all_products)) 1.5 0.75
      = some (calculate_bm25_score (tokenize_product_name original.name)
          (tokenize_product_name candidate.name)
          (calculate_bm25_idf (buildCorpus original all_products))
          (corpusAvgdl (buildCorpus original all_products)) 1.5 0.75) := by
    apply bm25_chk_eq_of
    by_cases hq : tokenize_product_name original.name = ∅
    · exact Or.inl hq
    · right; right
      have hmem : tokenize_product_name original.name ∈ buildCorpus original all_products := by
        simp [buildCorpus]
      have havg := corpusAvgdl_pos hmem hq
      exact ⟨ne_of_gt havg, ne_of_gt (bm25Denominator_pos (by positivity) havg)⟩
  simp only [name_similarity_with_context_chk, calculate_name_similarity_with_context,
    havgdl, hbmP]
  rcases ho : original.name_secondary with _ | s1
  · rfl
  · rcases hc : candidate.name_secondary with _ | s2
    · rfl
    · dsimp only
      by_cases hse : s1 = "" ∨ s2 = ""
      · rw [if_pos hse, if_pos hse]
      · rw [if_neg hse, if_neg hse]
        have hs1ne : s1 ≠ "" := fun hcon => hse (Or.inl hcon)
        have hbmS : calculate_bm25_score_chk (tokenize_product_name s1)
            (tokenize_product_name s2)
            (calculate_bm25_idf (buildCorpus original all_products))
            (corpusAvgdl (buildCorpus original all_products)) 1.5 0.75
            = some (calculate_bm25_score (tokenize_product_name s1)
                (tokenize_product_name s2)
                (calculate_bm25_idf (buildCorpus original all_products))
                (corpusAvgdl (buildCorpus original all_products)) 1.5 0.75) := by
          apply bm25_chk_eq_of
          by_cases hq2 : tokenize_product_name s1 = ∅
          · exact Or.inl hq2
          · right; right
            have hmem2 : tokenize_product_name s1 ∈ buildCorpus original all_products := by
              simp [buildCorpus, secondaryDocs, ho, hs1ne]
            have havg := corpusAvgdl_pos hmem2 hq2
            exact ⟨ne_of_gt havg, ne_of_gt (bm25Denominator_pos (by positivity) havg)⟩
        rw [hbmS]
        rfl

/-- C9: no division in the scoring pipeline divides by zero.  The checked
pipeline (every division site instrumented) always succeeds and agrees
with the plain one; the price-ratio division is defined whenever the
reference price is positive; an empty corpus defaults `avgdl` to 1; and
when every corpus document tokenizes to the empty set the BM25 score
degrades to 0 — the divisions involving `avgdl` are never evaluated. -/
theorem no_division_by_zero (original candidate : Product)
    (all_products : List Product) :
    (name_similarity_with_context_chk original candidate all_products
        = some (calculate_name_similarity_with_context original candidate all_products))
    ∧ (∀ p1 p2 : ℝ, 0 < p1 →
        calculate_price_similarity_chk p1 p2
          = some (calculate_price_similarity p1 p2))
    ∧ corpusAvgdl [] = 1
    ∧ ((∀ d ∈ buildCorpus original all_products, d = (∅ : Finset String)) →
        calculate_name_similarity_with_context original candidate all_products = 0) := by
  refine ⟨name_similarity_chk_eq original candidate all_products, ?_,
    by simp [corpusAvgdl], ?_⟩
  · intro p1 p2 hpos
    simp only [calculate_price_similarity_chk, if_neg (ne_of_gt hpos)]
  · intro hall
    have hq : tokenize_product_name original.name = ∅ :=
      hall _ (by simp [buildCorpus])
    have hbm : ∀ dt idf avg, calculate_bm25_score ∅ dt idf avg 1.5 0.75 = 0 := by
      intro dt idf avg
      simp [calculate_bm25_score]
    simp only [calculate_name_similarity_with_context]
    rcases ho : original.name_secondary with _ | s1
    · rw [hq]
      exact hbm _ _ _
    · rcases hc : candidate.name_secondary with _ | s2
      · rw [hq]
        exact hbm _ _ _
      · dsimp only
        by_cases hse : s1 = "" ∨ s2 = ""
        · rw [if_pos hse, hq]
          exact hbm _ _ _
        · rw [if_neg hse]
          have hs1ne : s1 ≠ "" := fun hcon => hse (Or.inl hcon)
          have hs1 : tokenize_product_name s1 = ∅ :=
            hall _ (by simp [buildCorpus, secondaryDocs, ho, hs1ne])
          rw [hq, hs1, hbm, hbm]
          simp

/-- Witness for C9: the checked price similarity at the positive reference
price 10 agrees with the plain one. -/
theorem no_division_by_zero_witness :
    calculate_price_similarity_chk 10 12
      = some (calculate_price_similarity 10 12) :=
  (no_division_by_zero (Product.mk "o" "P" "5" 1 none none none none)
    (Product.mk "c" "Q" "5" 1 none none none none) []).2.1 10 12 (by norm_num)

/-- C10: in the idf table built by `_calculate_bm25_idf` from N documents
with N at least 3, a term occurring in exactly 1 document receives a
strictly larger idf weight than a term occurring in exactly N - 1
documents. -/
theorem bm25_idf_rarity (documents : List (Finset String)) (t1 t2 : String)
    (h1 : docFreq documents t1 = 1)
    (h2 : docFreq documents t2 = documents.length - 1)
    (h3 : 3 ≤ documents.length) :
    ∃ r1 r2, calculate_bm25_idf documents t1 = some r1
      ∧ calculate_bm25_idf documents t2 = some r2 ∧ r2 < r1 := by
  have hne : documents ≠ [] := by
    intro hcon
    rw [hcon] at h3
    simp at h3
  have hN1 : (1:ℕ) ≤ documents.length := by omega
  have hdf1 : ¬ docFreq documents t1 = 0 := by omega
  have hdf2 : ¬ docFreq documents t2 = 0 := by omega
  refine ⟨Real.log (((documents.length : ℝ) - (docFreq documents t1 : ℝ) + 0.5)
      / ((docFreq documents t1 : ℝ) + 0.5) + 1),
    Real.log (((documents.length : ℝ) - (docFreq documents t2 : ℝ) + 0.5)
      / ((docFreq documents t2 : ℝ) + 0.5) + 1), ?_, ?_, ?_⟩
  · simp only [calculate_bm25_idf, if_neg hne, if_neg hdf1]
  · simp only [calculate_bm25_idf, if_neg hne, if_neg hdf2]
  · rw [h1, h2]
    have hNr : (3:ℝ) ≤ (documents.length : ℝ) := by exact_mod_cast h3
    rw [Nat.cast_sub hN1]
    push_cast
    have hd1 : (0:ℝ) < ((documents.length : ℝ) - 1) + 0.5 := by linarith
    have e2 : (documents.length : ℝ) - ((documents.length : ℝ) - 1) + 0.5 = 1.5 := by
      ring
    have key : 1.5 / (((documents.length : ℝ) - 1) + 0.5)
        < (((documents.length : ℝ) - 1) + 0.5) / 1.5 := by
      rw [div_lt_div_iff₀ hd1 (by norm_num : (0:ℝ) < 1.5)]
      nlinarith
    apply Real.log_lt_log
    · have hpos : (0:ℝ) < 1.5 / (((documents.length : ℝ) - 1) + 0.5) :=
        div_pos (by norm_num) hd1
      calc (0:ℝ) < 1.5 / (((documents.length : ℝ) - 1) + 0.5) + 1 := by linarith
      _ = ((documents.length : ℝ) - ((documents.length : ℝ) - 1) + 0.5)
            / (((documents.length : ℝ) - 1) + 0.5) + 1 := by rw [e2]
    · calc ((documents.length : ℝ) - ((documents.length : ℝ) - 1) + 0.5)
            / (((documents.length : ℝ) - 1) + 0.5) + 1
          = 1.5 / (((documents.length : ℝ) - 1) + 0.5) + 1 := by rw [e2]
      _ < (((documents.length : ℝ) - 1) + 0.5) / 1.5 + 1 := by linarith
      _ = ((documents.length : ℝ) - 1 + 0.5) / (1 + 0.5) + 1 := by norm_num

/-- Witness for C10 on a concrete 3-document corpus: "rare" occurs in 1
document, "shared" in 2 = 3 - 1 of them. -/
theorem bm25_idf_rarity_witness :
    docFreq [{"rare", "shared"}, {"shared"}, {"solo"}] "rare" = 1
    ∧ docFreq [{"rare", "shared"}, {"shared"}, {"solo"}] "shared"
        = ([{"rare", "shared"}, {"shared"}, {"solo"}] : List (Finset String)).length - 1
    ∧ ∃ r1 r2,
        calculate_bm25_idf [{"rare", "shared"}, {"shared"}, {"solo"}] "rare" = some r1
        ∧ calculate_bm25_idf [{"rare", "shared"}, {"shared"}, {"solo"}] "shared" = some r2
        ∧ r2 < r1 :=
  ⟨by decide, by decide,
    bm25_idf_rarity _ "rare" "shared" (by decide) (by decide) (by decide)⟩
